import Mathlib

/-
  Verification development for the mbdvr data-processing core
  (cleaner, clipper, stats engine).

  Modelling conventions:
  * Go float64 values are modelled by the extended type `GoF`:
    NaN, +Inf, -Inf, or a finite real number.  Rounding of float
    arithmetic is not modelled; finite arithmetic is exact real
    arithmetic.  IEEE special-value propagation (NaN comparisons are
    false, Inf arithmetic, 0/0 = NaN, x/0 = signed infinity) is
    modelled exactly.  The sign of floating-point zero is not
    modelled (the real number 0 is unsigned); no modelled code path
    distinguishes -0 from +0.
  * Go maps keyed by strings are modelled by association lists looked
    up with `List.lookup`; a map built by grouping a slice is modelled
    by the deduplicated key list together with an order-preserving
    filter per key (Go's append-per-key grouping yields exactly the
    order-preserving sublist for each key).
  * Go `[]T` slices are Lean lists.  Out-of-range indexing panics in
    Go; where an index expression occurs in the source, the model
    returns `GoF.nan` as a junk value for out-of-range indices (all
    such accesses are in-range on the reachable inputs).
  * Functions returning `(T, error)` in Go are modelled as
    `Except E T` with a structured error type capturing the values
    interpolated into the corresponding `fmt.Errorf` message.
-/

/-- A Go float64 value: NaN, +Inf, -Inf or a finite real. -/
inductive GoF where
  | nan : GoF
  | pinf : GoF
  | ninf : GoF
  | fin : ℝ → GoF

noncomputable instance : DecidableEq GoF := Classical.decEq GoF

namespace GoF

/-- IEEE `<` comparison: any comparison with NaN is false. -/
noncomputable def lt : GoF → GoF → Bool
  | nan, _ => false
  | _, nan => false
  | ninf, ninf => false
  | ninf, _ => true
  | _, ninf => false
  | pinf, _ => false
  | fin _, pinf => true
  | fin x, fin y => decide (x < y)

/-- IEEE `<=` comparison: any comparison with NaN is false. -/
noncomputable def le : GoF → GoF → Bool
  | nan, _ => false
  | _, nan => false
  | ninf, _ => true
  | _, ninf => false
  | _, pinf => true
  | pinf, fin _ => false
  | fin x, fin y => decide (x ≤ y)

/-- IEEE `>` comparison, mirroring Go's `a > b`. -/
noncomputable def gt (a b : GoF) : Bool := lt b a

/-- IEEE `>=` comparison, mirroring Go's `a >= b`. -/
noncomputable def ge (a b : GoF) : Bool := le b a

/-- IEEE addition on Go floats. -/
noncomputable def add : GoF → GoF → GoF
  | nan, _ => nan
  | _, nan => nan
  | pinf, ninf => nan
  | ninf, pinf => nan
  | pinf, _ => pinf
  | _, pinf => pinf
  | ninf, _ => ninf
  | _, ninf => ninf
  | fin x, fin y => fin (x + y)

/-- IEEE subtraction on Go floats. -/
noncomputable def sub : GoF → GoF → GoF
  | nan, _ => nan
  | _, nan => nan
  | pinf, pinf => nan
  | ninf, ninf => nan
  | pinf, _ => pinf
  | ninf, _ => ninf
  | fin _, pinf => ninf
  | fin _, ninf => pinf
  | fin x, fin y => fin (x - y)

/-- IEEE multiplication on Go floats (infinity times zero is NaN). -/
noncomputable def mul : GoF → GoF → GoF
  | nan, _ => nan
  | _, nan => nan
  | pinf, pinf => pinf
  | pinf, ninf => ninf
  | ninf, pinf => ninf
  | ninf, ninf => pinf
  | pinf, fin y => if y = 0 then nan else if 0 < y then pinf else ninf
  | ninf, fin y => if y = 0 then nan else if 0 < y then ninf else pinf
  | fin x, pinf => if x = 0 then nan else if 0 < x then pinf else ninf
  | fin x, ninf => if x = 0 then nan else if 0 < x then ninf else pinf
  | fin x, fin y => fin (x * y)

/-- IEEE division on Go floats: 0/0 and Inf/Inf are NaN, a nonzero
finite value divided by zero is a signed infinity (the sign of a
floating-point zero divisor is not modelled; the unsigned real zero
behaves as +0). -/
noncomputable def div : GoF → GoF → GoF
  | nan, _ => nan
  | _, nan => nan
  | pinf, pinf => nan
  | pinf, ninf => nan
  | ninf, pinf => nan
  | ninf, ninf => nan
  | pinf, fin y => if 0 ≤ y then pinf else ninf
  | ninf, fin y => if 0 ≤ y then ninf else pinf
  | fin _, pinf => fin 0
  | fin _, ninf => fin 0
  | fin x, fin y =>
      if y = 0 then (if x = 0 then nan else if 0 < x then pinf else ninf)
      else fin (x / y)

/-- IEEE square root: NaN for negative arguments, +Inf for +Inf. -/
noncomputable def sqrt : GoF → GoF
  | nan => nan
  | pinf => pinf
  | ninf => nan
  | fin x => if x < 0 then nan else fin (Real.sqrt x)

/-- IEEE absolute value (`math.Abs`). -/
noncomputable def abs : GoF → GoF
  | nan => nan
  | pinf => pinf
  | ninf => pinf
  | fin x => fin |x|

/-- `math.IsNaN`. -/
def isNaN : GoF → Bool
  | nan => true
  | _ => false

end GoF

@[simp] theorem GoF.lt_fin_fin (x y : ℝ) : GoF.lt (.fin x) (.fin y) = decide (x < y) := rfl

@[simp] theorem GoF.le_fin_fin (x y : ℝ) : GoF.le (.fin x) (.fin y) = decide (x ≤ y) := rfl

@[simp] theorem GoF.lt_fin_pinf (x : ℝ) : GoF.lt (.fin x) .pinf = true := rfl

@[simp] theorem GoF.lt_pinf (a : GoF) : GoF.lt .pinf a = false := by cases a <;> rfl

@[simp] theorem GoF.gt_fin_fin (x y : ℝ) : GoF.gt (.fin x) (.fin y) = decide (y < x) := rfl

@[simp] theorem GoF.gt_fin_ninf (x : ℝ) : GoF.gt (.fin x) .ninf = true := rfl

@[simp] theorem GoF.gt_ninf (a : GoF) : GoF.gt .ninf a = false := by cases a <;> rfl

@[simp] theorem GoF.ge_fin_fin (x y : ℝ) : GoF.ge (.fin x) (.fin y) = decide (y ≤ x) := rfl

@[simp] theorem GoF.add_fin_fin (x y : ℝ) : GoF.add (.fin x) (.fin y) = .fin (x + y) := rfl

@[simp] theorem GoF.sub_fin_fin (x y : ℝ) : GoF.sub (.fin x) (.fin y) = .fin (x - y) := rfl

@[simp] theorem GoF.mul_fin_fin (x y : ℝ) : GoF.mul (.fin x) (.fin y) = .fin (x * y) := rfl

@[simp] theorem GoF.mul_nan (a : GoF) : GoF.mul .nan a = .nan := by cases a <;> rfl

@[simp] theorem GoF.div_fin_fin (x y : ℝ) (h : y ≠ 0) :
    GoF.div (.fin x) (.fin y) = .fin (x / y) := by
  simp [GoF.div, h]

@[simp] theorem GoF.div_fin_zero_zero : GoF.div (.fin 0) (.fin 0) = .nan := by
  simp [GoF.div]

@[simp] theorem GoF.isNaN_fin (x : ℝ) : GoF.isNaN (.fin x) = false := rfl

@[simp] theorem GoF.isNaN_nan : GoF.isNaN .nan = true := rfl

/-- Go `int(f)` conversion of a float64: truncation toward zero. -/
noncomputable def realTrunc (r : ℝ) : ℤ := if r < 0 then ⌈r⌉ else ⌊r⌋

/-- Indexing a Go slice of floats with an int index; Go panics when the
index is out of range, modelled here by the junk value `GoF.nan`
(unreachable on the inputs the source feeds to it). -/
def goIndex (l : List GoF) (i : ℤ) : GoF :=
  if i < 0 then .nan else l.getD i.toNat .nan

/-- One sample: `types.DataPoint` (timestamp, sparse channel map,
participant id, condition label). -/
structure DataPoint where
  Timestamp : GoF
  Data : List (String × GoF)
  ParticipantID : String
  Condition : String

instance : Inhabited DataPoint := ⟨⟨.fin 0, [], "", ""⟩⟩

/-- `types.Dataset`: ordered samples, known column names, metadata.
Only the numeric metadata entries are modelled; the `cleaning_config`
entry (a struct value) is omitted from the metadata map model. -/
structure Dataset where
  Points : List DataPoint
  Columns : List String
  Metadata : List (String × GoF)

/-- Insertion of a float into an ascending list, auxiliary to
`sortFloats`. -/
noncomputable def insertF (v : GoF) : List GoF → List GoF
  | [] => [v]
  | x :: rest => if GoF.le v x then v :: x :: rest else x :: insertF v rest

/-- Ascending sort of a float slice, modelling Go's `sort.Float64s`.
Any correct ascending sort has the same semantics; on the modelled
call sites the input never contains NaN (for which Go's sort order is
unspecified). -/
noncomputable def sortFloats : List GoF → List GoF
  | [] => []
  | x :: rest => insertF x (sortFloats rest)

namespace Cleaner

/-- `cleaner.CleanConfig`. -/
structure CleanConfig where
  RequiredColumns : List String
  RemoveOutliers : Bool
  OutlierMethod : String
  MaxMissingPercent : ℝ
  ZScoreThreshold : ℝ

/-- `cleaner.CleanStats`. -/
structure CleanStats where
  OriginalPoints : ℕ
  RemovedMissing : ℕ
  RemovedOutliers : ℕ
  FinalPoints : ℕ

/-- `cleaner.percentile`: linear-interpolation percentile over an
already-sorted slice; `int(...)` index conversions truncate toward
zero as in Go. -/
noncomputable def percentile (sorted : List GoF) (p : ℝ) : GoF :=
  if sorted.length = 0 then .nan
  else
    let k : ℝ := p / 100 * ((sorted.length : ℝ) - 1)
    let f : ℝ := ((⌊k⌋ : ℤ) : ℝ)
    let c : ℝ := ((⌈k⌉ : ℤ) : ℝ)
    if f = c then goIndex sorted (realTrunc k)
    else
      GoF.add (GoF.mul (goIndex sorted (realTrunc f)) (.fin (c - k)))
        (GoF.mul (goIndex sorted (realTrunc c)) (.fin (k - f)))

/-- `cleaner.mean`. -/
noncomputable def mean (values : List GoF) : GoF :=
  if values.length = 0 then .nan
  else GoF.div (values.foldl GoF.add (.fin 0)) (.fin (values.length : ℝ))

/-- `cleaner.stdDev`: population standard deviation given the mean. -/
noncomputable def stdDev (values : List GoF) (meanV : GoF) : GoF :=
  if values.length = 0 then .nan
  else
    let varianceSum :=
      values.foldl (fun acc v => GoF.add acc (GoF.mul (GoF.sub v meanV) (GoF.sub v meanV))) (.fin 0)
    GoF.sqrt (GoF.div varianceSum (.fin (values.length : ℝ)))

/-- `cleaner.extractColumnValues`: values that are present and not
NaN, in sample order. -/
def extractColumnValues : List DataPoint → String → List GoF
  | [], _ => []
  | p :: rest, col =>
      match p.Data.lookup col with
      | some v => if v.isNaN then extractColumnValues rest col else v :: extractColumnValues rest col
      | none => extractColumnValues rest col

/-- `cleaner.calculateIQRBounds`. -/
noncomputable def calculateIQRBounds (values : List GoF) : GoF × GoF :=
  if values.length = 0 then (.nan, .nan)
  else
    let sorted := sortFloats values
    let q1 := percentile sorted 25
    let q3 := percentile sorted 75
    let iqr := GoF.sub q3 q1
    (GoF.sub q1 (GoF.mul (.fin 1.5) iqr), GoF.add q3 (GoF.mul (.fin 1.5) iqr))

/-- `cleaner.calculateZScoreBounds`. -/
noncomputable def calculateZScoreBounds (values : List GoF) (threshold : ℝ) : GoF × GoF :=
  if values.length = 0 then (.nan, .nan)
  else
    let m := mean values
    let sd := stdDev values m
    (GoF.sub m (GoF.mul (.fin threshold) sd), GoF.add m (GoF.mul (.fin threshold) sd))

/-- The per-sample missing-column count of `cleaner.filterMissingData`:
required columns that are absent or NaN. -/
def countMissing (p : DataPoint) (requiredCols : List String) : ℕ :=
  requiredCols.countP (fun col =>
    match p.Data.lookup col with
    | none => true
    | some v => v.isNaN)

/-- The retain/remove loop of `cleaner.filterMissingData`. -/
def missLoop (requiredCols : List String) (maxMissing : ℤ) : List DataPoint → List DataPoint × ℕ
  | [] => ([], 0)
  | p :: rest =>
      let r := missLoop requiredCols maxMissing rest
      if (countMissing p requiredCols : ℤ) ≤ maxMissing then (p :: r.1, r.2) else (r.1, r.2 + 1)

/-- `cleaner.filterMissingData`: drop each sample whose missing-column
count exceeds `int(Floor(len(requiredCols) * maxMissingPercent / 100))`. -/
noncomputable def filterMissingData (points : List DataPoint) (requiredCols : List String)
    (maxMissingPercent : ℝ) : List DataPoint × ℕ :=
  missLoop requiredCols ⌊(requiredCols.length : ℝ) * maxMissingPercent / 100⌋ points

/-- The bounds map built by `cleaner.filterOutliers`: per required
column with at least one present value, the outlier bounds for the
selected method (unrecognized methods fall back to IQR). -/
noncomputable def buildBounds (points : List DataPoint) (method : String) (zThreshold : ℝ) :
    List String → List (String × (GoF × GoF))
  | [] => []
  | col :: rest =>
      let values := extractColumnValues points col
      if values.length = 0 then buildBounds points method zThreshold rest
      else
        let b :=
          if method = "iqr" then calculateIQRBounds values
          else if method = "zscore" then calculateZScoreBounds values zThreshold
          else calculateIQRBounds values
        (col, b) :: buildBounds points method zThreshold rest

/-- The per-sample outlier test of `cleaner.filterOutliers`: some
checked column has bounds and a present value outside them. -/
noncomputable def isOutlier (bounds : List (String × (GoF × GoF))) (cols : List String)
    (p : DataPoint) : Bool :=
  cols.any (fun col =>
    match bounds.lookup col with
    | some b =>
        match p.Data.lookup col with
        | some val => GoF.lt val b.1 || GoF.gt val b.2
        | none => false
    | none => false)

/-- The retain/remove loop of `cleaner.filterOutliers`. -/
noncomputable def outlierLoop (bounds : List (String × (GoF × GoF))) (cols : List String) :
    List DataPoint → List DataPoint × ℕ
  | [] => ([], 0)
  | p :: rest =>
      let r := outlierLoop bounds cols rest
      if isOutlier bounds cols p then (r.1, r.2 + 1) else (p :: r.1, r.2)

/-- `cleaner.filterOutliers`. -/
noncomputable def filterOutliers (points : List DataPoint) (cols : List String) (method : String)
    (zThreshold : ℝ) : List DataPoint × ℕ :=
  if cols.length = 0 then (points, 0)
  else outlierLoop (buildBounds points method zThreshold cols) cols points

/-- `cleaner.CleanDataset`: missing-data filter (when enabled), then
outlier filter (when enabled), then metadata assembly.  The Go
function's error result is always nil; the `Except` models its
`error` return type.  The two `fmt.Printf` progress lines are side
effects outside the model. -/
noncomputable def CleanDataset (dataset : Dataset) (config : CleanConfig) :
    Except String (Dataset × CleanStats) :=
  let originalPoints := dataset.Points.length
  let step1 :=
    if 0 < config.MaxMissingPercent then
      filterMissingData dataset.Points config.RequiredColumns config.MaxMissingPercent
    else (dataset.Points, 0)
  let step2 :=
    if config.RemoveOutliers then
      filterOutliers step1.1 config.RequiredColumns config.OutlierMethod config.ZScoreThreshold
    else (step1.1, 0)
  let finalPoints := step2.1.length
  Except.ok
    ({ Points := step2.1,
       Columns := dataset.Columns,
       Metadata := [
         ("original_points", .fin (originalPoints : ℝ)),
         ("cleaned_points", .fin (finalPoints : ℝ)),
         ("points_removed", .fin ((originalPoints : ℝ) - (finalPoints : ℝ))),
         ("removal_percentage",
           GoF.mul (GoF.div (.fin ((originalPoints : ℝ) - (finalPoints : ℝ)))
             (.fin (originalPoints : ℝ))) (.fin 100))] },
     { OriginalPoints := originalPoints,
       RemovedMissing := step1.2,
       RemovedOutliers := step2.2,
       FinalPoints := finalPoints })

end Cleaner

namespace Clipper

/-- `clipper.ClipConfig`: nilable requested bounds. -/
structure ClipConfig where
  StartTime : Option GoF
  EndTime : Option GoF

/-- `clipper.ClipInfo`. -/
structure ClipInfo where
  MinTimestamp : GoF
  MaxTimestamp : GoF
  TotalDuration : GoF
  OriginalPoints : ℕ
  ClippedPoints : ℕ
  StartFrame : ℤ
  EndFrame : ℤ
  ActualStartTime : GoF
  ActualEndTime : GoF

/-- The structured content of the `fmt.Errorf` messages returned by
`clipper.ClipDataset`: each constructor carries the values
interpolated into the corresponding message (offending bound and
valid range for the out-of-bounds errors, end and start time for the
invalid-range error).  On error the Go function returns a nil dataset
together with the partially filled info, so no output dataset exists;
the partial info is not modelled. -/
inductive ClipError where
  | emptyDataset : ClipError
  | startOutOfBounds : GoF → GoF → GoF → ClipError
  | endOutOfBounds : GoF → GoF → GoF → ClipError
  | invalidRange : GoF → GoF → ClipError
  | noDataInRange : ClipError

/-- The minimum-timestamp scan of `clipper.ClipDataset`, seeded with
`math.Inf(1)`.  The source updates min and max in one loop over the
points; the two accumulators are independent, so the loop equals the
two separate folds `minScan` and `maxScan`. -/
noncomputable def minScan (points : List DataPoint) : GoF :=
  points.foldl (fun m p => if GoF.lt p.Timestamp m then p.Timestamp else m) .pinf

/-- The maximum-timestamp scan of `clipper.ClipDataset`, seeded with
`math.Inf(-1)`. -/
noncomputable def maxScan (points : List DataPoint) : GoF :=
  points.foldl (fun m p => if GoF.gt p.Timestamp m then p.Timestamp else m) .ninf

/-- The closest-frame loop of `clipper.ClipDataset`: starting from
index `i` with accumulators `sf`, `ef` (both initially -1), record the
first index whose timestamp is `>=` the start time and keep advancing
the last index whose timestamp is `<=` the end time. -/
noncomputable def clipScan (startT endT : GoF) : List DataPoint → ℕ → ℤ → ℤ → ℤ × ℤ
  | [], _, sf, ef => (sf, ef)
  | p :: rest, i, sf, ef =>
      clipScan startT endT rest (i + 1)
        (if sf = -1 ∧ GoF.ge p.Timestamp startT then (i : ℤ) else sf)
        (if GoF.le p.Timestamp endT then (i : ℤ) else ef)

/-- `clipper.ClipDataset`. -/
noncomputable def ClipDataset (dataset : Dataset) (config : ClipConfig) :
    Except ClipError (Dataset × ClipInfo) :=
  if dataset.Points.length = 0 then .error .emptyDataset
  else
    let minT := minScan dataset.Points
    let maxT := maxScan dataset.Points
    let startRes : Except ClipError GoF :=
      match config.StartTime with
      | some s =>
          if GoF.lt s minT || GoF.gt s maxT then .error (.startOutOfBounds s minT maxT)
          else .ok s
      | none => .ok minT
    match startRes with
    | .error e => .error e
    | .ok startTime =>
      let endRes : Except ClipError GoF :=
        match config.EndTime with
        | some e =>
            if GoF.lt e minT || GoF.gt e maxT then .error (.endOutOfBounds e minT maxT)
            else .ok e
        | none => .ok maxT
      match endRes with
      | .error e => .error e
      | .ok endTime =>
        if GoF.le endTime startTime then .error (.invalidRange endTime startTime)
        else
          let fr := clipScan startTime endTime dataset.Points 0 (-1) (-1)
          if fr.1 = -1 ∨ fr.2 = -1 ∨ fr.2 < fr.1 then .error .noDataInRange
          else
            let clippedPoints := (dataset.Points.drop fr.1.toNat).take (fr.2.toNat + 1 - fr.1.toNat)
            let actualStart := (clippedPoints.headD default).Timestamp
            let actualEnd := (clippedPoints.getLastD default).Timestamp
            .ok
              ({ Points := clippedPoints,
                 Columns := dataset.Columns,
                 Metadata := [
                   ("original_points", .fin (dataset.Points.length : ℝ)),
                   ("clipped_points", .fin (clippedPoints.length : ℝ)),
                   ("original_duration", GoF.sub maxT minT),
                   ("clipped_duration", GoF.sub actualEnd actualStart),
                   ("start_time", actualStart),
                   ("end_time", actualEnd),
                   ("requested_start", startTime),
                   ("requested_end", endTime)] },
               { MinTimestamp := minT,
                 MaxTimestamp := maxT,
                 TotalDuration := GoF.sub maxT minT,
                 OriginalPoints := dataset.Points.length,
                 ClippedPoints := clippedPoints.length,
                 StartFrame := fr.1,
                 EndFrame := fr.2,
                 ActualStartTime := actualStart,
                 ActualEndTime := actualEnd })

end Clipper

namespace Stats

/-- `stats.StatsConfig`. -/
structure StatsConfig where
  AnalyzeColumns : List String
  ByCondition : Bool
  ByParticipant : Bool

/-- `stats.ColumnStats`.  When the standard deviation is not positive
the outlier fields keep their Go zero values (`0`, `""`, `0.0`). -/
structure ColumnStats where
  Column : String
  Mean : GoF
  Median : GoF
  StdDev : GoF
  Min : GoF
  Max : GoF
  Count : ℕ
  MissingCount : ℕ
  OutlierCount : ℕ
  OutlierMethod : String
  ZScoreThreshold : GoF

/-- `stats.StatsReport`.  The two Go maps are modelled as association
lists with deduplicated keys; Go map iteration order is irrelevant to
their contents. -/
structure StatsReport where
  OverallStats : List ColumnStats
  ConditionStats : List (String × List ColumnStats)
  ParticipantStats : List (String × List ColumnStats)

/-- `stats.extractColumnValues`: values that are present and not NaN,
in sample order (textually identical to the cleaner's function of the
same name). -/
def extractColumnValues : List DataPoint → String → List GoF
  | [], _ => []
  | p :: rest, col =>
      match p.Data.lookup col with
      | some v => if v.isNaN then extractColumnValues rest col else v :: extractColumnValues rest col
      | none => extractColumnValues rest col

/-- Accumulator of the single pass over `values` in
`stats.computeColumnStats`. -/
structure StatAcc where
  missing : ℕ
  sum : GoF
  sumSq : GoF
  minV : GoF
  maxV : GoF

/-- One step of the single pass over `values` in
`stats.computeColumnStats`: NaN entries increment the missing count
and are skipped, other entries feed sum, sum of squares, min and max. -/
noncomputable def statStep (acc : StatAcc) (v : GoF) : StatAcc :=
  if v.isNaN then { acc with missing := acc.missing + 1 }
  else
    { missing := acc.missing,
      sum := GoF.add acc.sum v,
      sumSq := GoF.add acc.sumSq (GoF.mul v v),
      minV := if GoF.lt v acc.minV then v else acc.minV,
      maxV := if GoF.gt v acc.maxV then v else acc.maxV }

/-- The z-score outlier count of `stats.computeColumnStats`, with the
fixed threshold 3.0. -/
noncomputable def outlierCountZ (values : List GoF) (meanV sd : GoF) : ℕ :=
  values.countP (fun v =>
    !v.isNaN && GoF.gt (GoF.abs (GoF.div (GoF.sub v meanV) sd)) (.fin 3))

/-- `stats.computeColumnStats`: per-column statistics over the points
of `dataset`, one entry per analyzed column that has at least one
extracted value (columns with none are skipped).  The `config`
parameter is not used by the Go function body and is kept for
signature fidelity.  Its error result is always nil. -/
noncomputable def computeColumnStats (dataset : Dataset) (columns : List String)
    (config : StatsConfig) : List ColumnStats :=
  match columns with
  | [] => []
  | col :: restCols =>
      let values := extractColumnValues dataset.Points col
      if values.length = 0 then computeColumnStats dataset restCols config
      else
        let acc := values.foldl statStep
          { missing := 0, sum := .fin 0, sumSq := .fin 0, minV := .pinf, maxV := .ninf }
        let count := values.length
        let meanV := GoF.div acc.sum (.fin ((count : ℝ) - (acc.missing : ℝ)))
        let sortedValues := sortFloats (values.filter (fun v => !v.isNaN))
        let mid := sortedValues.length / 2
        let median :=
          if sortedValues.length % 2 = 0 then
            GoF.div (GoF.add (goIndex sortedValues ((mid : ℤ) - 1)) (goIndex sortedValues (mid : ℤ)))
              (.fin 2)
          else goIndex sortedValues (mid : ℤ)
        let variance := GoF.sub (GoF.div acc.sumSq (.fin ((count : ℝ) - (acc.missing : ℝ))))
          (GoF.mul meanV meanV)
        let sd := GoF.sqrt variance
        { Column := col,
          Mean := meanV,
          Median := median,
          StdDev := sd,
          Min := acc.minV,
          Max := acc.maxV,
          Count := count,
          MissingCount := acc.missing,
          OutlierCount := if GoF.gt sd (.fin 0) then outlierCountZ values meanV sd else 0,
          OutlierMethod := if GoF.gt sd (.fin 0) then "z-score" else "",
          ZScoreThreshold := if GoF.gt sd (.fin 0) then .fin 3 else .fin 0 }
          :: computeColumnStats dataset restCols config

/-- The condition partition key of `stats.ComputeStats`: the empty
label maps to the literal key `"unknown"`. -/
def condKey (p : DataPoint) : String :=
  if p.Condition = "" then "unknown" else p.Condition

/-- The participant partition key of `stats.ComputeStats`, with the
same `"unknown"` fallback. -/
def partKey (p : DataPoint) : String :=
  if p.ParticipantID = "" then "unknown" else p.ParticipantID

/-- `stats.ComputeStats`: empty datasets are rejected; an empty
analyze list defaults to the dataset's column list; each requested
axis groups all samples of the full dataset by its key and computes
per-partition column statistics; with no axis requested a single
overall list is computed.  Grouping by a Go map is modelled as the
deduplicated key list with the order-preserving filter per key. -/
noncomputable def ComputeStats (dataset : Dataset) (config : StatsConfig) :
    Except String StatsReport :=
  if dataset.Points.length = 0 then .error "dataset is empty"
  else
    let cols := if config.AnalyzeColumns.length = 0 then dataset.Columns else config.AnalyzeColumns
    let conditionStats :=
      if config.ByCondition then
        ((dataset.Points.map condKey).dedup).map (fun key =>
          (key, computeColumnStats
            { Points := dataset.Points.filter (fun p => condKey p == key),
              Columns := dataset.Columns, Metadata := [] } cols config))
      else []
    let participantStats :=
      if config.ByParticipant then
        ((dataset.Points.map partKey).dedup).map (fun key =>
          (key, computeColumnStats
            { Points := dataset.Points.filter (fun p => partKey p == key),
              Columns := dataset.Columns, Metadata := [] } cols config))
      else []
    let overall :=
      if !config.ByCondition && !config.ByParticipant then
        computeColumnStats dataset cols config
      else []
    .ok { OverallStats := overall,
          ConditionStats := conditionStats,
          ParticipantStats := participantStats }

end Stats

/-- The final point count produced by `CleanDataset` (the length of
the output dataset's sample list; `CleanDataset` never errors, the
error arm is unreachable). -/
noncomputable def cleanFinalCount (ds : Dataset) (cfg : Cleaner.CleanConfig) : ℕ :=
  match Cleaner.CleanDataset ds cfg with
  | .ok r => r.1.Points.length
  | .error _ => 0

/-- The `removal_percentage` metadata entry recorded on the dataset
returned by `CleanDataset`. -/
noncomputable def cleanRemovalPct (ds : Dataset) (cfg : Cleaner.CleanConfig) : Option GoF :=
  match Cleaner.CleanDataset ds cfg with
  | .ok r => r.1.Metadata.lookup "removal_percentage"
  | .error _ => none

theorem outlierLoop_fst_sublist (bounds : List (String × (GoF × GoF))) (cols : List String) :
    ∀ pts : List DataPoint, ((Cleaner.outlierLoop bounds cols pts).1).Sublist pts := by
  intro pts
  induction pts with
  | nil => simp [Cleaner.outlierLoop]
  | cons p rest ih =>
      by_cases h : Cleaner.isOutlier bounds cols p = true
      · simpa [Cleaner.outlierLoop, h] using ih.cons p
      · simpa [Cleaner.outlierLoop, h] using ih.cons₂ p

theorem filterOutliers_fst_sublist (pts : List DataPoint) (cols : List String) (method : String)
    (t : ℝ) : ((Cleaner.filterOutliers pts cols method t).1).Sublist pts := by
  unfold Cleaner.filterOutliers
  by_cases h : cols.length = 0
  · simp [h]
  · simpa [h] using outlierLoop_fst_sublist _ cols pts

/-- C9: `CleanDataset` never returns an error: for every dataset
(including one with zero samples) and every configuration it returns
an ok result. -/
theorem cleanDataset_total_ok :
    ∀ (ds : Dataset) (cfg : Cleaner.CleanConfig),
      ∃ out, Cleaner.CleanDataset ds cfg = Except.ok out := by
  intro ds cfg
  exact ⟨_, rfl⟩

/-- C8: the outlier filter only removes rows (its output is a sublist
of its input), and running `CleanDataset` with outlier removal enabled
yields a final sample count at most that of running it with outlier
removal disabled and all other parameters identical. -/
theorem outlier_removal_monotone :
    (∀ (pts : List DataPoint) (cols : List String) (method : String) (t : ℝ),
        ((Cleaner.filterOutliers pts cols method t).1).Sublist pts)
    ∧ ∀ (ds : Dataset) (cfg : Cleaner.CleanConfig),
        cleanFinalCount ds { cfg with RemoveOutliers := true } ≤
          cleanFinalCount ds { cfg with RemoveOutliers := false } := by
  refine ⟨filterOutliers_fst_sublist, ?_⟩
  intro ds cfg
  simp only [cleanFinalCount, Cleaner.CleanDataset]
  exact (filterOutliers_fst_sublist _ _ _ _).length_le

theorem filterMissingData_nil (cols : List String) (pct : ℝ) :
    Cleaner.filterMissingData [] cols pct = ([], 0) := rfl

theorem filterOutliers_nil (cols : List String) (method : String) (t : ℝ) :
    Cleaner.filterOutliers [] cols method t = ([], 0) := by
  unfold Cleaner.filterOutliers
  by_cases h : cols.length = 0 <;> simp [h, Cleaner.outlierLoop]

/-- An empty input dataset for exercising `CleanDataset` with zero
samples. -/
def c2EmptyDs : Dataset := { Points := [], Columns := ["x"], Metadata := [] }

/-- A cleaning configuration with both filters disabled. -/
def c2Cfg : Cleaner.CleanConfig :=
  { RequiredColumns := [], RemoveOutliers := false, OutlierMethod := "iqr",
    MaxMissingPercent := 0, ZScoreThreshold := 3 }

/-- C2 counterexample: on a dataset with zero samples `CleanDataset`
records `removal_percentage = NaN` — the `0/0` division propagates
into the metadata unguarded, so the recorded value is not NaN-safe
and no distinct no-data signal is produced. -/
theorem cleanRemovalPct_zero_points_nan :
    cleanRemovalPct c2EmptyDs c2Cfg = some GoF.nan := by
  show cleanRemovalPct { Points := [], Columns := ["x"], Metadata := [] }
    { RequiredColumns := [], RemoveOutliers := false, OutlierMethod := "iqr",
      MaxMissingPercent := 0, ZScoreThreshold := 3 } = some GoF.nan
  simp only [cleanRemovalPct, Cleaner.CleanDataset]
  norm_num [List.lookup, GoF.div, GoF.mul]
  rfl

/-- C2 amended: for every configuration, when the input dataset has
zero samples the `removal_percentage` metadata entry recorded by
`CleanDataset` is NaN (the `0/0` division propagates); the code does
not replace it with a distinct "no data" signal. -/
theorem cleanRemovalPct_empty_is_nan (ds : Dataset) (cfg : Cleaner.CleanConfig)
    (h : ds.Points = []) : cleanRemovalPct ds cfg = some GoF.nan := by
  simp only [cleanRemovalPct, Cleaner.CleanDataset, h, filterMissingData_nil, filterOutliers_nil,
    ite_self]
  norm_num [List.lookup, GoF.div, GoF.mul]
  rfl

/-- C2 witness: the amended statement applied to a concrete empty
dataset and a configuration with both filters enabled. -/
theorem cleanRemovalPct_empty_is_nan_witness :
    ({ Points := [], Columns := [], Metadata := [] } : Dataset).Points = [] ∧
      cleanRemovalPct { Points := [], Columns := [], Metadata := [] }
        { RequiredColumns := ["x"], RemoveOutliers := true, OutlierMethod := "zscore",
          MaxMissingPercent := 10, ZScoreThreshold := 2.5 } = some GoF.nan :=
  ⟨rfl, cleanRemovalPct_empty_is_nan _ _ rfl⟩

theorem missLoop_fst_eq_filter (cols : List String) (b : ℤ) (pts : List DataPoint) :
    (Cleaner.missLoop cols b pts).1 =
      pts.filter (fun p => decide ((Cleaner.countMissing p cols : ℤ) ≤ b)) := by
  induction pts with
  | nil => rfl
  | cons p rest ih =>
      by_cases h : (Cleaner.countMissing p cols : ℤ) ≤ b <;>
        simp [Cleaner.missLoop, h, ih]

/-- C6: the missing-data filter retains a sample iff its count of
required columns that are absent or NaN is at most
`floor(len(requiredColumns) * maxMissingPercent / 100)`; with an empty
required-column list the budget is 0 and every sample is retained. -/
theorem filterMissingData_retains_iff (points : List DataPoint) (requiredCols : List String)
    (pct : ℝ) (hpct : 0 < pct) :
    (Cleaner.filterMissingData points requiredCols pct).1 =
      points.filter (fun p =>
        decide ((Cleaner.countMissing p requiredCols : ℤ) ≤
          ⌊(requiredCols.length : ℝ) * pct / 100⌋))
    ∧ (requiredCols = [] → (Cleaner.filterMissingData points requiredCols pct).1 = points) := by
  constructor
  · exact missLoop_fst_eq_filter requiredCols _ points
  · intro h
    subst h
    rw [Cleaner.filterMissingData, missLoop_fst_eq_filter]
    have hb : ⌊(([] : List String).length : ℝ) * pct / 100⌋ = 0 := by norm_num
    simp [hb, Cleaner.countMissing]

/-- Sample with channel `x` present and finite and channel `y`
present but NaN (one missing required column). -/
def c6P1 : DataPoint := ⟨.fin 0, [("x", .fin 1), ("y", .nan)], "p1", "A"⟩

/-- Sample with both required channels absent (two missing required
columns). -/
def c6P2 : DataPoint := ⟨.fin 1, [], "p1", "A"⟩

/-- C6 witness: with required columns `x, y` and a 50 percent budget
(missing-budget `floor(2*50/100) = 1`), the sample missing one
required column is retained and the sample missing both is removed. -/
theorem filterMissingData_retains_iff_witness :
    (0 : ℝ) < 50 ∧
      (Cleaner.filterMissingData [c6P1, c6P2] ["x", "y"] 50).1 = [c6P1] := by
  refine ⟨by norm_num, ?_⟩
  rw [(filterMissingData_retains_iff [c6P1, c6P2] ["x", "y"] 50 (by norm_num)).1]
  have hb : ⌊(2 : ℝ) * 50 / 100⌋ = 1 := by norm_num
  have h1 : Cleaner.countMissing c6P1 ["x", "y"] = 1 := rfl
  have h2 : Cleaner.countMissing c6P2 ["x", "y"] = 2 := rfl
  simp [List.filter, h1, h2, hb]

theorem goIndex_map_fin (xs : List ℝ) (i : ℤ) (h0 : 0 ≤ i) (h : i.toNat < xs.length) :
    goIndex (xs.map GoF.fin) i = .fin (xs.getD i.toNat 0) := by
  unfold goIndex
  rw [if_neg (not_lt.mpr h0), List.getD_eq_getElem?_getD, List.getElem?_map,
    List.getElem?_eq_getElem h, List.getD_eq_getElem?_getD, List.getElem?_eq_getElem h]
  rfl

/-- The spec's own wording of the percentile computation (section 4.1),
the comparison point for the refinement claim C3: for rank
`k = (p/100)*(n-1)`, if `k` is an integer return `sortedValues[k]`,
otherwise linearly interpolate between `sortedValues[floor(k)]` and
`sortedValues[ceil(k)]` weighted by the fractional part of `k`. -/
noncomputable def percentileSpecR (xs : List ℝ) (p : ℝ) : ℝ :=
  let k := p / 100 * ((xs.length : ℝ) - 1)
  if ((⌊k⌋ : ℤ) : ℝ) = k then xs.getD (⌊k⌋).toNat 0
  else
    let a := xs.getD (⌊k⌋).toNat 0
    let b := xs.getD (⌈k⌉).toNat 0
    a + (k - ((⌊k⌋ : ℤ) : ℝ)) * (b - a)

/-- C3: on every non-empty ascending-sorted finite value sequence and
percentile `0 ≤ p ≤ 100`, the source's `percentile` computes exactly
the rank-`(p/100)*(n-1)` value of the spec: the entry itself at an
integer rank, and the fractional-part-weighted linear interpolation
between the floor and ceiling entries otherwise. -/
theorem percentile_matches_spec (xs : List ℝ) (p : ℝ) (hne : xs ≠ [])
    (hsorted : xs.Sorted (fun a b => a ≤ b)) (h0 : 0 ≤ p) (h100 : p ≤ 100) :
    Cleaner.percentile (xs.map GoF.fin) p = .fin (percentileSpecR xs p) := by
  have hlen : xs.length ≠ 0 := fun h => hne (List.length_eq_zero.mp h)
  have hn1 : (1 : ℝ) ≤ (xs.length : ℝ) := by
    exact_mod_cast Nat.one_le_iff_ne_zero.mpr hlen
  have hk0 : 0 ≤ p / 100 * ((xs.length : ℝ) - 1) :=
    mul_nonneg (div_nonneg h0 (by norm_num)) (by linarith)
  have hkle : p / 100 * ((xs.length : ℝ) - 1) ≤ (xs.length : ℝ) - 1 := by
    have hd : p / 100 ≤ 1 := (div_le_one (by norm_num)).mpr h100
    have hm := mul_le_mul_of_nonneg_right hd (by linarith : (0 : ℝ) ≤ (xs.length : ℝ) - 1)
    linarith
  set k : ℝ := p / 100 * ((xs.length : ℝ) - 1) with hkdef
  have hf0 : (0 : ℤ) ≤ ⌊k⌋ := Int.le_floor.mpr (by exact_mod_cast hk0)
  have hfk : ((⌊k⌋ : ℤ) : ℝ) ≤ k := Int.floor_le k
  have hkc : k ≤ ((⌈k⌉ : ℤ) : ℝ) := Int.le_ceil k
  have hcle : ⌈k⌉ ≤ (xs.length : ℤ) - 1 := by
    apply Int.ceil_le.mpr
    push_cast
    linarith
  have hfc : ⌊k⌋ ≤ ⌈k⌉ := Int.floor_le_ceil k
  have hnlen : (xs.map GoF.fin).length = xs.length := List.length_map _ _
  simp only [Cleaner.percentile, percentileSpecR, hnlen, ← hkdef]
  rw [if_neg hlen]
  by_cases hceq : ((⌊k⌋ : ℤ) : ℝ) = ((⌈k⌉ : ℤ) : ℝ)
  · have hints : ((⌊k⌋ : ℤ) : ℝ) = k := le_antisymm hfk (by rw [hceq]; exact hkc)
    rw [if_pos hceq, if_pos hints]
    have htr : realTrunc k = ⌊k⌋ := by rw [realTrunc, if_neg (not_lt.mpr hk0)]
    rw [htr, goIndex_map_fin xs _ hf0 (by omega)]
  · have hspec : ¬ ((⌊k⌋ : ℤ) : ℝ) = k := by
      intro h
      apply hceq
      have hcf : ⌈k⌉ = ⌊k⌋ := by
        rw [← h, Int.ceil_intCast, Int.floor_intCast]
      rw [hcf]
    have hc1 : ⌈k⌉ = ⌊k⌋ + 1 := by
      have h2 := Int.ceil_le_floor_add_one k
      have h3 : ⌊k⌋ ≠ ⌈k⌉ := fun h => hceq (by rw [h])
      omega
    rw [if_neg hceq, if_neg hspec]
    have hidxf : ⌊k⌋.toNat < xs.length := by omega
    have hidxc : ⌈k⌉.toNat < xs.length := by omega
    have htrf : realTrunc ((⌊k⌋ : ℤ) : ℝ) = ⌊k⌋ := by
      rw [realTrunc, if_neg (not_lt.mpr (by exact_mod_cast hf0)), Int.floor_intCast]
    have htrc : realTrunc ((⌈k⌉ : ℤ) : ℝ) = ⌈k⌉ := by
      rw [realTrunc, if_neg (not_lt.mpr (by exact_mod_cast le_trans hf0 hfc)), Int.floor_intCast]
    rw [htrf, htrc, goIndex_map_fin xs _ hf0 hidxf,
      goIndex_map_fin xs _ (le_trans hf0 hfc) hidxc]
    simp only [GoF.mul_fin_fin, GoF.add_fin_fin]
    congr 1
    have hcr : ((⌈k⌉ : ℤ) : ℝ) = ((⌊k⌋ : ℤ) : ℝ) + 1 := by exact_mod_cast hc1
    rw [hcr]
    ring

/-- C3 witness: the refinement theorem applied to the claim's two
examples: `percentile([1,2,3,4], 50) = 2.5` and
`percentile([1,2,3], 50) = 2`. -/
theorem percentile_matches_spec_witness :
    Cleaner.percentile ([(1 : ℝ), 2, 3, 4].map GoF.fin) 50 = .fin (5 / 2) ∧
      Cleaner.percentile ([(1 : ℝ), 2, 3].map GoF.fin) 50 = .fin 2 := by
  constructor
  · rw [percentile_matches_spec [(1 : ℝ), 2, 3, 4] 50 (by simp)
      (by simp [List.sorted_cons]; norm_num) (by norm_num) (by norm_num)]
    have hk : (50 : ℝ) / 100 * (((([(1 : ℝ), 2, 3, 4].length : ℕ)) : ℝ) - 1) = 3 / 2 := by
      norm_num
    have hf : ⌊(3 / 2 : ℝ)⌋ = 1 := by
      rw [Int.floor_eq_iff]
      norm_num
    have hc : ⌈(3 / 2 : ℝ)⌉ = 2 := by
      rw [Int.ceil_eq_iff]
      norm_num
    simp only [percentileSpecR, hk, hf, hc]
    have h2 : (2 : ℤ).toNat = 2 := rfl
    norm_num [h2, List.getD_cons_succ, List.getD_cons_zero, List.getElem_cons_succ,
      List.getElem_cons_zero]
  · rw [percentile_matches_spec [(1 : ℝ), 2, 3] 50 (by simp)
      (by simp [List.sorted_cons]; norm_num) (by norm_num) (by norm_num)]
    have hk : (50 : ℝ) / 100 * (((([(1 : ℝ), 2, 3].length : ℕ)) : ℝ) - 1) = 1 := by
      norm_num
    have hf : ⌊(1 : ℝ)⌋ = 1 := Int.floor_one
    simp only [percentileSpecR, hk, hf]
    norm_num

theorem statsExtract_no_nan (col : String) :
    ∀ (pts : List DataPoint) (v : GoF), v ∈ Stats.extractColumnValues pts col →
      v.isNaN = false := by
  intro pts
  induction pts with
  | nil => intro v hv; simp [Stats.extractColumnValues] at hv
  | cons p rest ih =>
      intro v hv
      simp only [Stats.extractColumnValues] at hv
      split at hv
      · rename_i w _
        by_cases hw : w.isNaN = true
        · exact ih v (by rwa [if_pos hw] at hv)
        · rw [if_neg hw, List.mem_cons] at hv
          rcases hv with rfl | hv
          · simpa using hw
          · exact ih v hv
      · exact ih v hv

theorem statsFold_missing : ∀ (values : List GoF) (init : Stats.StatAcc),
    (∀ v ∈ values, v.isNaN = false) →
      (values.foldl Stats.statStep init).missing = init.missing := by
  intro values
  induction values with
  | nil => intro init _; rfl
  | cons v rest ih =>
      intro init hall
      rw [List.foldl_cons]
      rw [ih _ (fun w hw => hall w (List.mem_cons_of_mem v hw))]
      simp [Stats.statStep, hall v (List.mem_cons_self v rest)]

/-- The MissingCount recorded by `computeColumnStats` is always zero:
`stats.extractColumnValues` already drops present-but-NaN entries, so
the NaN branch of the accumulation pass is dead code. -/
theorem computeColumnStats_missingCount_zero (ds : Dataset) (cfg : Stats.StatsConfig) :
    ∀ (cols : List String) (s : Stats.ColumnStats),
      s ∈ Stats.computeColumnStats ds cols cfg → s.MissingCount = 0 := by
  intro cols
  induction cols with
  | nil => intro s hs; simp [Stats.computeColumnStats] at hs
  | cons col rest ih =>
      intro s hs
      simp only [Stats.computeColumnStats] at hs
      by_cases h : (Stats.extractColumnValues ds.Points col).length = 0
      · exact ih s (by rwa [if_pos h] at hs)
      · rw [if_neg h, List.mem_cons] at hs
        rcases hs with rfl | hs
        · exact statsFold_missing _ _ (fun v hv => statsExtract_no_nan col ds.Points v hv)
        · exact ih s hs

/-- Three samples whose channel `x` is `1.0`, present-but-NaN, and
`3.0`: the failing input for claim C1. -/
def c1Points : List DataPoint :=
  [⟨.fin 0, [("x", .fin 1)], "p1", "A"⟩,
   ⟨.fin 1, [("x", .nan)], "p1", "A"⟩,
   ⟨.fin 2, [("x", .fin 3)], "p1", "A"⟩]

/-- C1: evaluation of the stats engine at the failing input.  The
extraction used at report construction (`stats.extractColumnValues`)
is the same strict present-and-non-NaN extraction as the cleaner's:
the present-but-NaN entry is silently excluded, so `computeColumnStats`
reports `Count = 2` and `MissingCount = 0` for the three samples,
not `Count = 3` and `MissingCount = 1` as the claim states. -/
theorem stats_nan_excluded_from_report :
    Stats.extractColumnValues c1Points "x" = [.fin 1, .fin 3]
    ∧ (Stats.computeColumnStats { Points := c1Points, Columns := ["x"], Metadata := [] }
        ["x"] { AnalyzeColumns := ["x"], ByCondition := false, ByParticipant := false }).map
          (fun s => (s.Count, s.MissingCount)) = [(2, 0)] := by
  constructor
  · rfl
  · rfl

/-- The effective analyzed-column list of `ComputeStats`: an empty
`AnalyzeColumns` defaults to the dataset's column list. -/
def statsCols (ds : Dataset) (cfg : Stats.StatsConfig) : List String :=
  if cfg.AnalyzeColumns.length = 0 then ds.Columns else cfg.AnalyzeColumns

theorem lookup_keyed_map {β : Type} (f : String → β) :
    ∀ (ks : List String) (key : String),
      ((ks.map (fun k => (k, f k))).lookup key) = if key ∈ ks then some (f key) else none := by
  intro ks
  induction ks with
  | nil => intro key; simp
  | cons k rest ih =>
      intro key
      by_cases h : key = k
      · subst h
        simp [List.lookup]
      · simp [List.lookup, beq_false_of_ne h, h, ih key]

/-- C7: for every non-empty dataset with `byCondition` requested,
`ComputeStats` succeeds and its condition map has exactly the observed
condition keys (empty label replaced by `"unknown"`), each bound to the
column statistics computed over exactly that partition's own samples;
the participant axis, when also requested, is grouped the same way
over the same full sample list, not nested inside conditions. -/
theorem computeStats_condition_partitions (ds : Dataset) (cfg : Stats.StatsConfig)
    (hne : ds.Points ≠ []) (hbc : cfg.ByCondition = true) :
    ∃ r, Stats.ComputeStats ds cfg = .ok r ∧
      (∀ key, ((r.ConditionStats.lookup key).isSome = true) ↔
        ∃ p ∈ ds.Points, Stats.condKey p = key) ∧
      (∀ key, key ∈ ds.Points.map Stats.condKey →
        r.ConditionStats.lookup key = some (Stats.computeColumnStats
          { Points := ds.Points.filter (fun p => Stats.condKey p == key),
            Columns := ds.Columns, Metadata := [] } (statsCols ds cfg) cfg)) ∧
      (cfg.ByParticipant = true →
        ∀ key, key ∈ ds.Points.map Stats.partKey →
          r.ParticipantStats.lookup key = some (Stats.computeColumnStats
            { Points := ds.Points.filter (fun p => Stats.partKey p == key),
              Columns := ds.Columns, Metadata := [] } (statsCols ds cfg) cfg)) := by
  have hlen : ¬ ds.Points.length = 0 := fun h => hne (List.length_eq_zero.mp h)
  unfold Stats.ComputeStats
  rw [if_neg hlen]
  refine ⟨_, rfl, ?_, ?_, ?_⟩
  · intro key
    simp only [hbc, if_true]
    rw [lookup_keyed_map]
    by_cases h : key ∈ (ds.Points.map Stats.condKey).dedup
    · simp only [if_pos h, Option.isSome_some]
      simp only [List.mem_dedup, List.mem_map] at h
      simpa using h
    · simp only [if_neg h, Option.isSome_none]
      simp only [List.mem_dedup, List.mem_map] at h
      simpa using h
  · intro key hkey
    simp only [hbc, if_true]
    rw [lookup_keyed_map, if_pos (List.mem_dedup.mpr hkey)]
    rfl
  · intro hbp key hkey
    simp only [hbp, if_true]
    rw [lookup_keyed_map, if_pos (List.mem_dedup.mpr hkey)]
    rfl

/-- First sample of the C7 witness dataset, condition `A`. -/
def c7P1 : DataPoint := ⟨.fin 0, [("x", .fin 1)], "p1", "A"⟩

/-- Second sample of the C7 witness dataset, condition `B`. -/
def c7P2 : DataPoint := ⟨.fin 1, [("x", .fin 2)], "p2", "B"⟩

/-- The C7 witness dataset with condition labels `A` and `B`. -/
def c7Ds : Dataset := ⟨[c7P1, c7P2], ["x"], []⟩

/-- The C7 witness configuration: group by condition only. -/
def c7Cfg : Stats.StatsConfig := ⟨["x"], true, false⟩

/-- C7 witness: on the two-condition dataset the partition theorem
yields exactly the keys `A` and `B` and no key `C`. -/
theorem computeStats_condition_partitions_witness :
    ∃ r, Stats.ComputeStats c7Ds c7Cfg = .ok r ∧
      (r.ConditionStats.lookup "A").isSome = true ∧
      (r.ConditionStats.lookup "B").isSome = true ∧
      (r.ConditionStats.lookup "C").isSome = false := by
  obtain ⟨r, hr, hiff, -, -⟩ :=
    computeStats_condition_partitions c7Ds c7Cfg (by simp [c7Ds]) rfl
  refine ⟨r, hr, ?_, ?_, ?_⟩
  · exact (hiff "A").mpr ⟨c7P1, by simp [c7Ds], rfl⟩
  · exact (hiff "B").mpr ⟨c7P2, by simp [c7Ds], rfl⟩
  · have h3 : ¬ ∃ p ∈ c7Ds.Points, Stats.condKey p = "C" := by
      simp [c7Ds, Stats.condKey, c7P1, c7P2]
    cases hb : (r.ConditionStats.lookup "C").isSome with
    | false => rfl
    | true => exact (h3 ((hiff "C").mp hb)).elim

@[simp] theorem GoF.le_nan_left (a : GoF) : GoF.le .nan a = false := by cases a <;> rfl

@[simp] theorem GoF.le_nan_right (a : GoF) : GoF.le a .nan = false := by cases a <;> rfl

@[simp] theorem GoF.ge_nan_right (a : GoF) : GoF.ge a .nan = false := by cases a <;> rfl

@[simp] theorem GoF.lt_nan_left (a : GoF) : GoF.lt .nan a = false := by cases a <;> rfl

@[simp] theorem GoF.lt_nan_right (a : GoF) : GoF.lt a .nan = false := by cases a <;> rfl

@[simp] theorem GoF.gt_nan_left (a : GoF) : GoF.gt .nan a = false := by cases a <;> rfl

@[simp] theorem GoF.gt_nan_right (a : GoF) : GoF.gt a .nan = false := by cases a <;> rfl

@[simp] theorem GoF.lt_ninf_fin (x : ℝ) : GoF.lt .ninf (.fin x) = true := rfl

@[simp] theorem GoF.gt_pinf_fin (x : ℝ) : GoF.gt .pinf (.fin x) = true := rfl

@[simp] theorem GoF.lt_fin_ninf (x : ℝ) : GoF.lt (.fin x) .ninf = false := rfl

@[simp] theorem GoF.gt_fin_pinf (x : ℝ) : GoF.gt (.fin x) .pinf = false := rfl

theorem minScan_fold_const (c : ℝ) : ∀ (pts : List DataPoint) (a : ℝ),
    (∀ p ∈ pts, p.Timestamp = .fin c) →
      pts.foldl (fun m p => if GoF.lt p.Timestamp m then p.Timestamp else m) (.fin a) =
        if pts.length = 0 then .fin a else .fin (min a c) := by
  intro pts
  induction pts with
  | nil => intro a _; rfl
  | cons p rest ih =>
      intro a h
      rw [List.foldl_cons, h p (List.mem_cons_self p rest)]
      simp only [GoF.lt_fin_fin]
      by_cases hca : c < a
      · rw [if_pos (by simpa using hca), ih c (fun q hq => h q (List.mem_cons_of_mem p hq))]
        by_cases hr : rest.length = 0 <;>
          simp [hr, min_eq_right (le_of_lt hca), min_self]
      · rw [if_neg (by simpa using hca), ih a (fun q hq => h q (List.mem_cons_of_mem p hq))]
        by_cases hr : rest.length = 0 <;>
          simp [hr, min_eq_left (le_of_not_lt hca)]

theorem maxScan_fold_const (c : ℝ) : ∀ (pts : List DataPoint) (a : ℝ),
    (∀ p ∈ pts, p.Timestamp = .fin c) →
      pts.foldl (fun m p => if GoF.gt p.Timestamp m then p.Timestamp else m) (.fin a) =
        if pts.length = 0 then .fin a else .fin (max a c) := by
  intro pts
  induction pts with
  | nil => intro a _; rfl
  | cons p rest ih =>
      intro a h
      rw [List.foldl_cons, h p (List.mem_cons_self p rest)]
      simp only [GoF.gt_fin_fin]
      by_cases hca : a < c
      · rw [if_pos (by simpa using hca), ih c (fun q hq => h q (List.mem_cons_of_mem p hq))]
        by_cases hr : rest.length = 0 <;>
          simp [hr, max_eq_right (le_of_lt hca), max_self]
      · rw [if_neg (by simpa using hca), ih a (fun q hq => h q (List.mem_cons_of_mem p hq))]
        by_cases hr : rest.length = 0 <;>
          simp [hr, max_eq_left (le_of_not_lt hca)]

theorem minScan_const (pts : List DataPoint) (c : ℝ) (hne : pts ≠ [])
    (h : ∀ p ∈ pts, p.Timestamp = .fin c) : Clipper.minScan pts = .fin c := by
  cases pts with
  | nil => exact absurd rfl hne
  | cons p rest =>
      rw [Clipper.minScan, List.foldl_cons, h p (List.mem_cons_self p rest)]
      rw [show (if GoF.lt (GoF.fin c) GoF.pinf then GoF.fin c else GoF.pinf) = GoF.fin c by simp]
      rw [minScan_fold_const c rest c (fun q hq => h q (List.mem_cons_of_mem p hq))]
      by_cases hr : rest.length = 0 <;> simp [hr]

theorem maxScan_const (pts : List DataPoint) (c : ℝ) (hne : pts ≠ [])
    (h : ∀ p ∈ pts, p.Timestamp = .fin c) : Clipper.maxScan pts = .fin c := by
  cases pts with
  | nil => exact absurd rfl hne
  | cons p rest =>
      rw [Clipper.maxScan, List.foldl_cons, h p (List.mem_cons_self p rest)]
      rw [show (if GoF.gt (GoF.fin c) GoF.ninf then GoF.fin c else GoF.ninf) = GoF.fin c by simp]
      rw [maxScan_fold_const c rest c (fun q hq => h q (List.mem_cons_of_mem p hq))]
      by_cases hr : rest.length = 0 <;> simp [hr]

theorem clipScan_nan_start (e : GoF) : ∀ (pts : List DataPoint) (i0 : ℕ) (sf0 ef0 : ℤ),
    (Clipper.clipScan .nan e pts i0 sf0 ef0).1 = sf0 := by
  intro pts
  induction pts with
  | nil => intro i0 sf0 ef0; rfl
  | cons p rest ih =>
      intro i0 sf0 ef0
      rw [Clipper.clipScan]
      rw [show (if sf0 = -1 ∧ GoF.ge p.Timestamp GoF.nan then (i0 : ℤ) else sf0) = sf0 by simp]
      exact ih _ _ _

theorem clipScan_nan_end (s : GoF) : ∀ (pts : List DataPoint) (i0 : ℕ) (sf0 ef0 : ℤ),
    (Clipper.clipScan s .nan pts i0 sf0 ef0).2 = ef0 := by
  intro pts
  induction pts with
  | nil => intro i0 sf0 ef0; rfl
  | cons p rest ih =>
      intro i0 sf0 ef0
      rw [Clipper.clipScan]
      rw [show (if GoF.le p.Timestamp GoF.nan then (i0 : ℤ) else ef0) = ef0 by simp]
      exact ih _ _ _

theorem finBoundCheck_ne (x c : ℝ) (hx : x ≠ c) :
    (GoF.lt (.fin x) (.fin c) || GoF.gt (.fin x) (.fin c)) = true := by
  rcases lt_or_gt_of_ne hx with h | h <;> simp [h]

/-- C10: a non-empty dataset whose samples all share one timestamp can
never be clipped: with no requested bounds the effective bounds
default to the equal observed min and max and `ClipDataset` fails with
the invalid-range error carrying the end and start times; moreover
every configuration whatsoever produces some error. -/
theorem clipDataset_constant_timestamps (ds : Dataset) (c : ℝ)
    (hne : ds.Points ≠ [])
    (hc : ∀ p ∈ ds.Points, p.Timestamp = .fin c) :
    Clipper.ClipDataset ds { StartTime := none, EndTime := none } =
      .error (.invalidRange (.fin c) (.fin c))
    ∧ ∀ cfg : Clipper.ClipConfig, ∃ err, Clipper.ClipDataset ds cfg = .error err := by
  have hlen : ¬ ds.Points.length = 0 := fun h => hne (List.length_eq_zero.mp h)
  have hmin := minScan_const ds.Points c hne hc
  have hmax := maxScan_const ds.Points c hne hc
  constructor
  · unfold Clipper.ClipDataset
    rw [if_neg hlen, hmin, hmax]
    simp
  · intro cfg
    unfold Clipper.ClipDataset
    rw [if_neg hlen, hmin, hmax]
    cases hs : cfg.StartTime with
    | some v =>
        cases v with
        | pinf => exact ⟨.startOutOfBounds .pinf (.fin c) (.fin c), by simp⟩
        | ninf => exact ⟨.startOutOfBounds .ninf (.fin c) (.fin c), by simp⟩
        | nan =>
            cases he : cfg.EndTime with
            | none =>
                exact ⟨.noDataInRange,
                  by simp [clipScan_nan_start (GoF.fin c) ds.Points 0 (-1) (-1)]⟩
            | some w =>
                cases w with
                | pinf => exact ⟨.endOutOfBounds .pinf (.fin c) (.fin c), by simp⟩
                | ninf => exact ⟨.endOutOfBounds .ninf (.fin c) (.fin c), by simp⟩
                | nan =>
                    exact ⟨.noDataInRange,
                      by simp [clipScan_nan_start GoF.nan ds.Points 0 (-1) (-1)]⟩
                | fin y =>
                    by_cases hy : y = c
                    · subst hy
                      exact ⟨.noDataInRange,
                        by simp [clipScan_nan_start (GoF.fin y) ds.Points 0 (-1) (-1)]⟩
                    · exact ⟨.endOutOfBounds (.fin y) (.fin c) (.fin c),
                        by simp [finBoundCheck_ne y c hy, hy]⟩
        | fin x =>
            by_cases hx : x = c
            · subst hx
              cases he : cfg.EndTime with
              | none => exact ⟨.invalidRange (.fin x) (.fin x), by simp⟩
              | some w =>
                  cases w with
                  | pinf => exact ⟨.endOutOfBounds .pinf (.fin x) (.fin x), by simp⟩
                  | ninf => exact ⟨.endOutOfBounds .ninf (.fin x) (.fin x), by simp⟩
                  | nan =>
                      exact ⟨.noDataInRange,
                        by simp [clipScan_nan_end (GoF.fin x) ds.Points 0 (-1) (-1)]⟩
                  | fin y =>
                      by_cases hy : y = x
                      · subst hy
                        exact ⟨.invalidRange (.fin y) (.fin y), by simp⟩
                      · exact ⟨.endOutOfBounds (.fin y) (.fin x) (.fin x),
                          by simp [finBoundCheck_ne y x hy, hy]⟩
            · exact ⟨.startOutOfBounds (.fin x) (.fin c) (.fin c),
                by simp [finBoundCheck_ne x c hx, hx]⟩
    | none =>
        cases he : cfg.EndTime with
        | none => exact ⟨.invalidRange (.fin c) (.fin c), by simp⟩
        | some w =>
            cases w with
            | pinf => exact ⟨.endOutOfBounds .pinf (.fin c) (.fin c), by simp⟩
            | ninf => exact ⟨.endOutOfBounds .ninf (.fin c) (.fin c), by simp⟩
            | nan =>
                exact ⟨.noDataInRange,
                  by simp [clipScan_nan_end (GoF.fin c) ds.Points 0 (-1) (-1)]⟩
            | fin y =>
                by_cases hy : y = c
                · subst hy
                  exact ⟨.invalidRange (.fin y) (.fin y), by simp⟩
                · exact ⟨.endOutOfBounds (.fin y) (.fin c) (.fin c),
                    by simp [finBoundCheck_ne y c hy, hy]⟩

/-- C10 witness: two samples sharing timestamp `5` and the no-bounds
configuration produce the invalid-range error. -/
theorem clipDataset_constant_timestamps_witness :
    ([(⟨.fin 5, [], "p1", "A"⟩ : DataPoint), ⟨.fin 5, [], "p2", "B"⟩] ≠ ([] : List DataPoint)) ∧
      Clipper.ClipDataset
          { Points := [⟨.fin 5, [], "p1", "A"⟩, ⟨.fin 5, [], "p2", "B"⟩],
            Columns := [], Metadata := [] }
          { StartTime := none, EndTime := none } =
        .error (.invalidRange (.fin 5) (.fin 5)) := by
  refine ⟨by simp, ?_⟩
  exact (clipDataset_constant_timestamps
    { Points := [⟨.fin 5, [], "p1", "A"⟩, ⟨.fin 5, [], "p2", "B"⟩],
      Columns := [], Metadata := [] } 5 (by simp)
    (by intro p hp; simp only [List.mem_cons, List.mem_singleton] at hp
        rcases hp with rfl | rfl | h <;> first | rfl | simp at h)).1

/-- C5: for every non-empty dataset, when a requested clip bound fails
the source's range check against the observed min and max timestamps
(strictly below the min or strictly above the max; NaN and infinite
bounds behave exactly as the IEEE comparisons dictate), `ClipDataset`
fails with the corresponding out-of-bounds error naming the offending
requested value and the valid range, and no output dataset is
produced.  A failing start bound is reported first; a failing end
bound is reported when the start bound is absent or passes its check. -/
theorem clipDataset_out_of_bounds (ds : Dataset) (cfg : Clipper.ClipConfig) (m M : ℝ)
    (hne : ds.Points ≠ [])
    (hm : Clipper.minScan ds.Points = .fin m)
    (hM : Clipper.maxScan ds.Points = .fin M)
    (hbad : (∃ v, cfg.StartTime = some v ∧ (GoF.lt v (.fin m) || GoF.gt v (.fin M)) = true)
        ∨ ((cfg.StartTime = none ∨ ∃ w, cfg.StartTime = some w ∧
              (GoF.lt w (.fin m) || GoF.gt w (.fin M)) = false)
            ∧ ∃ v, cfg.EndTime = some v ∧ (GoF.lt v (.fin m) || GoF.gt v (.fin M)) = true)) :
    ∃ v, ((Clipper.ClipDataset ds cfg = .error (.startOutOfBounds v (.fin m) (.fin M))
            ∧ cfg.StartTime = some v)
        ∨ (Clipper.ClipDataset ds cfg = .error (.endOutOfBounds v (.fin m) (.fin M))
            ∧ cfg.EndTime = some v))
      ∧ (GoF.lt v (.fin m) || GoF.gt v (.fin M)) = true := by
  have hlen : ¬ ds.Points.length = 0 := fun h => hne (List.length_eq_zero.mp h)
  rcases hbad with ⟨v, hsv, hvb⟩ | ⟨hpass, v, hev, hvb⟩
  · refine ⟨v, Or.inl ⟨?_, hsv⟩, hvb⟩
    unfold Clipper.ClipDataset
    rw [if_neg hlen, hm, hM, hsv]
    simp [hvb]
  · refine ⟨v, Or.inr ⟨?_, hev⟩, hvb⟩
    unfold Clipper.ClipDataset
    rw [if_neg hlen, hm, hM, hev]
    rcases hpass with hnone | ⟨w, hsw, hwb⟩
    · rw [hnone]
      simp [hvb]
    · rw [hsw]
      simp [hwb, hvb]

/-- The C5 witness dataset with timestamps `0` and `30`. -/
def c5Ds : Dataset :=
  { Points := [⟨.fin 0, [], "p", "A"⟩, ⟨.fin 30, [], "p", "A"⟩], Columns := [], Metadata := [] }

/-- The C5 witness configuration requesting `end = 100`. -/
def c5Cfg : Clipper.ClipConfig := { StartTime := none, EndTime := some (.fin 100) }

/-- C5 witness: clipping timestamps `[0, 30]` with requested end `100`
fails with the end-out-of-bounds error naming `100` and the range
`[0, 30]`, and no output dataset is produced. -/
theorem clipDataset_out_of_bounds_witness :
    Clipper.minScan c5Ds.Points = .fin 0 ∧ Clipper.maxScan c5Ds.Points = .fin 30 ∧
      ∃ v, ((Clipper.ClipDataset c5Ds c5Cfg = .error (.startOutOfBounds v (.fin 0) (.fin 30))
              ∧ c5Cfg.StartTime = some v)
          ∨ (Clipper.ClipDataset c5Ds c5Cfg = .error (.endOutOfBounds v (.fin 0) (.fin 30))
              ∧ c5Cfg.EndTime = some v))
        ∧ (GoF.lt v (.fin 0) || GoF.gt v (.fin 30)) = true := by
  have hmin : Clipper.minScan c5Ds.Points = .fin 0 := by
    norm_num [Clipper.minScan, c5Ds, List.foldl]
  have hmax : Clipper.maxScan c5Ds.Points = .fin 30 := by
    norm_num [Clipper.maxScan, c5Ds, List.foldl]
  refine ⟨hmin, hmax, ?_⟩
  apply clipDataset_out_of_bounds c5Ds c5Cfg 0 30 (by simp [c5Ds]) hmin hmax
  right
  exact ⟨Or.inl rfl, .fin 100, rfl, by norm_num⟩

/-- Index of the first entry `>= s` in a list of reals (the start
frame the clip scan resolves). -/
noncomputable def firstGe (s : ℝ) : List ℝ → Option ℕ
  | [] => none
  | x :: rest => if s ≤ x then some 0 else (firstGe s rest).map (fun n => n + 1)

/-- Index of the last entry `<= e` in a list of reals (the end frame
the clip scan resolves). -/
noncomputable def lastLe (e : ℝ) : List ℝ → Option ℕ
  | [] => none
  | x :: rest =>
      match lastLe e rest with
      | some k => some (k + 1)
      | none => if x ≤ e then some 0 else none

theorem firstGe_spec (s : ℝ) : ∀ (xs : List ℝ) (i : ℕ), firstGe s xs = some i →
    i < xs.length ∧ s ≤ xs.getD i 0 ∧ ∀ k < i, xs.getD k 0 < s := by
  intro xs
  induction xs with
  | nil => intro i h; simp [firstGe] at h
  | cons x rest ih =>
      intro i h
      simp only [firstGe] at h
      by_cases hx : s ≤ x
      · rw [if_pos hx] at h
        obtain rfl : (0 : ℕ) = i := Option.some.inj h
        exact ⟨Nat.succ_pos _, by simpa using hx, fun k hk => absurd hk (Nat.not_lt_zero k)⟩
      · rw [if_neg hx] at h
        cases hfr : firstGe s rest with
        | none => rw [hfr] at h; simp at h
        | some j =>
            rw [hfr] at h
            rw [show Option.map (fun n => n + 1) (some j) = some (j + 1) from rfl] at h
            replace h := Option.some.inj h
            obtain ⟨h1, h2, h3⟩ := ih j hfr
            subst h
            refine ⟨Nat.succ_lt_succ h1, by simpa using h2, ?_⟩
            intro k hk
            cases k with
            | zero => simpa using lt_of_not_le hx
            | succ k2 => simpa using h3 k2 (Nat.lt_of_succ_lt_succ hk)

theorem firstGe_min (s : ℝ) : ∀ (xs : List ℝ) (mi : ℕ), mi < xs.length →
    s ≤ xs.getD mi 0 → ∃ i, firstGe s xs = some i ∧ i ≤ mi := by
  intro xs
  induction xs with
  | nil => intro mi h; simp at h
  | cons x rest ih =>
      intro mi hmi hsm
      by_cases hx : s ≤ x
      · exact ⟨0, by simp [firstGe, hx], Nat.zero_le mi⟩
      · cases mi with
        | zero => exact absurd (by simpa using hsm) hx
        | succ m2 =>
            obtain ⟨i, hi, hile⟩ := ih m2 (Nat.lt_of_succ_lt_succ hmi) (by simpa using hsm)
            exact ⟨i + 1, by simp [firstGe, hx, hi], Nat.succ_le_succ hile⟩

theorem lastLe_none (e : ℝ) : ∀ (xs : List ℝ), lastLe e xs = none →
    ∀ k, k < xs.length → e < xs.getD k 0 := by
  intro xs
  induction xs with
  | nil => intro _ k hk; simp at hk
  | cons x rest ih =>
      intro h k hk
      simp only [lastLe] at h
      cases hlr : lastLe e rest with
      | some k2 => rw [hlr] at h; simp at h
      | none =>
          rw [hlr] at h
          by_cases hx : x ≤ e
          · rw [if_pos hx] at h; simp at h
          · cases k with
            | zero => simpa using lt_of_not_le hx
            | succ k3 => simpa using ih hlr k3 (Nat.lt_of_succ_lt_succ hk)

theorem lastLe_spec (e : ℝ) : ∀ (xs : List ℝ) (j : ℕ), lastLe e xs = some j →
    j < xs.length ∧ xs.getD j 0 ≤ e ∧ ∀ k, j < k → k < xs.length → e < xs.getD k 0 := by
  intro xs
  induction xs with
  | nil => intro j h; simp [lastLe] at h
  | cons x rest ih =>
      intro j h
      simp only [lastLe] at h
      cases hlr : lastLe e rest with
      | some k =>
          rw [hlr] at h
          obtain rfl : k + 1 = j := Option.some.inj h
          obtain ⟨h1, h2, h3⟩ := ih k hlr
          refine ⟨Nat.succ_lt_succ h1, by simpa using h2, ?_⟩
          intro k2 hk2 hk2len
          cases k2 with
          | zero => omega
          | succ k3 =>
              simpa using h3 k3 (by omega) (by simpa using hk2len)
      | none =>
          rw [hlr] at h
          by_cases hx : x ≤ e
          · rw [if_pos hx] at h
            obtain rfl : (0 : ℕ) = j := Option.some.inj h
            refine ⟨Nat.succ_pos _, by simpa using hx, ?_⟩
            intro k2 hk2 hk2len
            cases k2 with
            | zero => omega
            | succ k3 => simpa using lastLe_none e rest hlr k3 (Nat.lt_of_succ_lt_succ hk2len)
          · rw [if_neg hx] at h; simp at h

theorem lastLe_max (e : ℝ) : ∀ (xs : List ℝ) (mi : ℕ), mi < xs.length →
    xs.getD mi 0 ≤ e → ∃ j, lastLe e xs = some j ∧ mi ≤ j := by
  intro xs
  induction xs with
  | nil => intro mi h; simp at h
  | cons x rest ih =>
      intro mi hmi hme
      cases mi with
      | zero =>
          cases hlr : lastLe e rest with
          | some k => exact ⟨k + 1, by simp [lastLe, hlr], by omega⟩
          | none =>
              exact ⟨0, by simp [lastLe, hlr, show x ≤ e from by simpa using hme], le_refl 0⟩
      | succ m2 =>
          obtain ⟨j, hj, hjge⟩ := ih m2 (Nat.lt_of_succ_lt_succ hmi) (by simpa using hme)
          exact ⟨j + 1, by simp [lastLe, hj], by omega⟩

theorem clipScan_sf_stay (s e : GoF) : ∀ (pts : List DataPoint) (i0 : ℕ) (sf0 ef0 : ℤ),
    sf0 ≠ -1 → (Clipper.clipScan s e pts i0 sf0 ef0).1 = sf0 := by
  intro pts
  induction pts with
  | nil => intro i0 sf0 ef0 _; rfl
  | cons p pr ih =>
      intro i0 sf0 ef0 hsf
      rw [Clipper.clipScan]
      rw [show (if sf0 = -1 ∧ GoF.ge p.Timestamp s then (i0 : ℤ) else sf0) = sf0 from
        by simp [hsf]]
      exact ih _ _ _ hsf

theorem clipScan_sf (s e : ℝ) : ∀ (pts : List DataPoint) (xs : List ℝ),
    pts.map (fun p => p.Timestamp) = xs.map GoF.fin →
    ∀ (i0 : ℕ) (ef0 : ℤ),
      (Clipper.clipScan (.fin s) (.fin e) pts i0 (-1) ef0).1 =
        (match firstGe s xs with
         | some k => ((i0 + k : ℕ) : ℤ)
         | none => -1) := by
  intro pts
  induction pts with
  | nil =>
      intro xs hmap i0 ef0
      cases xs with
      | nil => rfl
      | cons x xr => simp at hmap
  | cons p pr ih =>
      intro xs hmap i0 ef0
      cases xs with
      | nil => simp at hmap
      | cons x xr =>
          simp only [List.map_cons, List.cons.injEq] at hmap
          obtain ⟨hpx, hrest⟩ := hmap
          rw [Clipper.clipScan, hpx]
          by_cases hx : s ≤ x
          · rw [show (if (-1 : ℤ) = -1 ∧ GoF.ge (GoF.fin x) (.fin s) then ((i0 : ℕ) : ℤ)
                else (-1 : ℤ)) = ((i0 : ℕ) : ℤ) from by simp [hx]]
            rw [clipScan_sf_stay _ _ pr _ _ _ (by omega)]
            simp [firstGe, hx]
          · rw [show (if (-1 : ℤ) = -1 ∧ GoF.ge (GoF.fin x) (.fin s) then ((i0 : ℕ) : ℤ)
                else (-1 : ℤ)) = (-1 : ℤ) from by simp [hx]]
            rw [ih xr hrest (i0 + 1) _]
            simp only [firstGe, if_neg hx]
            cases hfr : firstGe s xr with
            | none => simp
            | some k => simp; ring
  
theorem clipScan_ef (s e : ℝ) : ∀ (pts : List DataPoint) (xs : List ℝ),
    pts.map (fun p => p.Timestamp) = xs.map GoF.fin →
    ∀ (i0 : ℕ) (sf0 ef0 : ℤ),
      (Clipper.clipScan (.fin s) (.fin e) pts i0 sf0 ef0).2 =
        (match lastLe e xs with
         | some k => ((i0 + k : ℕ) : ℤ)
         | none => ef0) := by
  intro pts
  induction pts with
  | nil =>
      intro xs hmap i0 sf0 ef0
      cases xs with
      | nil => rfl
      | cons x xr => simp at hmap
  | cons p pr ih =>
      intro xs hmap i0 sf0 ef0
      cases xs with
      | nil => simp at hmap
      | cons x xr =>
          simp only [List.map_cons, List.cons.injEq] at hmap
          obtain ⟨hpx, hrest⟩ := hmap
          rw [Clipper.clipScan, hpx]
          rw [ih xr hrest (i0 + 1) _ _]
          simp only [lastLe]
          cases hlr : lastLe e xr with
          | some k => simp; ring
          | none =>
              by_cases hx : x ≤ e
              · simp [hx]
              · simp [hx]

/-- The effective clip start time resolved by `ClipDataset`: the
requested start when given, otherwise the observed minimum timestamp. -/
noncomputable def clipEffStart (pts : List DataPoint) (cfg : Clipper.ClipConfig) : GoF :=
  match cfg.StartTime with
  | some s => s
  | none => Clipper.minScan pts

/-- The effective clip end time resolved by `ClipDataset`: the
requested end when given, otherwise the observed maximum timestamp. -/
noncomputable def clipEffEnd (pts : List DataPoint) (cfg : Clipper.ClipConfig) : GoF :=
  match cfg.EndTime with
  | some e => e
  | none => Clipper.maxScan pts

theorem map_fin_length (pts : List DataPoint) (xs : List ℝ)
    (hx : pts.map (fun p => p.Timestamp) = xs.map GoF.fin) : pts.length = xs.length := by
  simpa using congrArg List.length hx

theorem ts_getD (pts : List DataPoint) (xs : List ℝ)
    (hx : pts.map (fun p => p.Timestamp) = xs.map GoF.fin) (i : ℕ) (hi : i < pts.length) :
    (pts.getD i default).Timestamp = .fin (xs.getD i 0) := by
  have hlen : pts.length = xs.length := map_fin_length pts xs hx
  have hxi : i < xs.length := by omega
  have h1 := congrArg (fun l => l[i]?) hx
  simp only [List.getElem?_map] at h1
  rw [List.getElem?_eq_getElem hi, List.getElem?_eq_getElem hxi] at h1
  rw [show Option.map (fun p => p.Timestamp) (some (pts[i])) = some ((pts[i]).Timestamp) from rfl,
    show Option.map GoF.fin (some (xs[i])) = some (GoF.fin (xs[i])) from rfl] at h1
  rw [List.getD_eq_getElem _ _ hi, List.getD_eq_getElem _ _ hxi]
  exact Option.some.inj h1

theorem slice_length (pts : List DataPoint) (i j : ℕ) (hij : i ≤ j) (hj : j < pts.length) :
    ((pts.drop i).take (j + 1 - i)).length = j + 1 - i := by
  rw [List.length_take, List.length_drop]
  omega

theorem slice_headD (pts : List DataPoint) (i j : ℕ) (hij : i ≤ j) (hj : j < pts.length) :
    (((pts.drop i).take (j + 1 - i)).headD default) = pts.getD i default := by
  rw [List.drop_eq_getElem_cons (by omega : i < pts.length),
    show j + 1 - i = (j - i) + 1 from by omega, List.take_succ_cons, List.headD_cons,
    List.getD_eq_getElem _ _ (by omega : i < pts.length)]

theorem slice_getLastD (pts : List DataPoint) (i j : ℕ) (hij : i ≤ j) (hj : j < pts.length) :
    (((pts.drop i).take (j + 1 - i)).getLastD default) = pts.getD j default := by
  rw [List.getLastD_eq_getLast?, List.getLast?_eq_getElem?, slice_length pts i j hij hj,
    List.getElem?_take, if_pos (by omega : j + 1 - i - 1 < j + 1 - i), List.getElem?_drop,
    show i + (j + 1 - i - 1) = j from by omega, List.getElem?_eq_getElem hj,
    List.getD_eq_getElem _ _ hj]
  rfl

/-- C4 (amended): for every non-empty time-ordered dataset with finite
timestamps and effective bounds `start < end` inside the observed
range such that at least one sample's timestamp lies inside
`[start, end]`, `ClipDataset` succeeds and returns exactly the
contiguous inclusive slice from the first sample with timestamp
`>= start` to the last sample with timestamp `<= end`, with
`ActualStartTime`/`ActualEndTime` equal to those two samples'
timestamps (so a sample whose timestamp exactly equals a requested
bound is included).  Without the in-window sample hypothesis the
source instead fails with `NoDataInRange` (see the counterexample). -/
theorem clipDataset_window (ds : Dataset) (cfg : Clipper.ClipConfig) (xs : List ℝ)
    (s e m M : ℝ)
    (hx : ds.Points.map (fun p => p.Timestamp) = xs.map GoF.fin)
    (hne : ds.Points ≠ [])
    (hsorted : xs.Sorted (fun a b => a ≤ b))
    (hm : Clipper.minScan ds.Points = .fin m)
    (hM : Clipper.maxScan ds.Points = .fin M)
    (hs : clipEffStart ds.Points cfg = .fin s)
    (he : clipEffEnd ds.Points cfg = .fin e)
    (hsm : m ≤ s) (hsMl : s ≤ M) (hem : m ≤ e) (heM : e ≤ M)
    (hse : s < e)
    (hwin : ∃ mi, mi < xs.length ∧ s ≤ xs.getD mi 0 ∧ xs.getD mi 0 ≤ e) :
    ∃ out info, Clipper.ClipDataset ds cfg = .ok (out, info) ∧
      ∃ i j : ℕ, i ≤ j ∧ j < xs.length ∧
        out.Points = (ds.Points.drop i).take (j + 1 - i) ∧
        s ≤ xs.getD i 0 ∧ (∀ k < i, xs.getD k 0 < s) ∧
        xs.getD j 0 ≤ e ∧ (∀ k, j < k → k < xs.length → e < xs.getD k 0) ∧
        info.StartFrame = (i : ℤ) ∧ info.EndFrame = (j : ℤ) ∧
        info.ActualStartTime = .fin (xs.getD i 0) ∧
        info.ActualEndTime = .fin (xs.getD j 0) ∧
        info.ClippedPoints = j + 1 - i := by
  have hlen : ¬ ds.Points.length = 0 := fun h => hne (List.length_eq_zero.mp h)
  have hlxs : ds.Points.length = xs.length := map_fin_length _ _ hx
  obtain ⟨mi, hmi, hsmi, hmie⟩ := hwin
  obtain ⟨i, hfirst, hile⟩ := firstGe_min s xs mi hmi hsmi
  obtain ⟨j, hlast, hjge⟩ := lastLe_max e xs mi hmi hmie
  have hij : i ≤ j := le_trans hile hjge
  obtain ⟨hilen, hsi, hprev⟩ := firstGe_spec s xs i hfirst
  obtain ⟨hjlen, hje, hafter⟩ := lastLe_spec e xs j hlast
  have hipts : i < ds.Points.length := by omega
  have hjpts : j < ds.Points.length := by omega
  have hsf2 : (Clipper.clipScan (.fin s) (.fin e) ds.Points 0 (-1) (-1)).1 = ((i : ℕ) : ℤ) := by
    rw [clipScan_sf s e ds.Points xs hx 0 (-1), hfirst]
    simp
  have hef2 : (Clipper.clipScan (.fin s) (.fin e) ds.Points 0 (-1) (-1)).2 = ((j : ℕ) : ℤ) := by
    rw [clipScan_ef s e ds.Points xs hx 0 (-1) (-1), hlast]
    simp
  have hnd : ¬ (((i : ℕ) : ℤ) = -1 ∨ ((j : ℕ) : ℤ) = -1 ∨ ((j : ℕ) : ℤ) < ((i : ℕ) : ℤ)) := by
    push_neg
    refine ⟨by omega, by omega, by exact_mod_cast hij⟩
  have hles : GoF.le (.fin e) (.fin s) = false := by
    simp [not_le.mpr hse]
  have hfinish : ∀ r : Except Clipper.ClipError (Dataset × Clipper.ClipInfo),
      r = (if GoF.le (.fin e) (.fin s) then
            Except.error (Clipper.ClipError.invalidRange (.fin e) (.fin s))
          else
            let fr := Clipper.clipScan (.fin s) (.fin e) ds.Points 0 (-1) (-1)
            if fr.1 = -1 ∨ fr.2 = -1 ∨ fr.2 < fr.1 then
              Except.error Clipper.ClipError.noDataInRange
            else
              let clippedPoints :=
                (ds.Points.drop fr.1.toNat).take (fr.2.toNat + 1 - fr.1.toNat)
              let actualStart := (clippedPoints.headD default).Timestamp
              let actualEnd := (clippedPoints.getLastD default).Timestamp
              Except.ok
                ({ Points := clippedPoints,
                   Columns := ds.Columns,
                   Metadata := [
                     ("original_points", .fin (ds.Points.length : ℝ)),
                     ("clipped_points", .fin (clippedPoints.length : ℝ)),
                     ("original_duration", GoF.sub (.fin M) (.fin m)),
                     ("clipped_duration", GoF.sub actualEnd actualStart),
                     ("start_time", actualStart),
                     ("end_time", actualEnd),
                     ("requested_start", .fin s),
                     ("requested_end", .fin e)] },
                 { MinTimestamp := .fin m,
                   MaxTimestamp := .fin M,
                   TotalDuration := GoF.sub (.fin M) (.fin m),
                   OriginalPoints := ds.Points.length,
                   ClippedPoints := clippedPoints.length,
                   StartFrame := fr.1,
                   EndFrame := fr.2,
                   ActualStartTime := actualStart,
                   ActualEndTime := actualEnd })) →
      ∃ out info, r = .ok (out, info) ∧
        ∃ i2 j2 : ℕ, i2 ≤ j2 ∧ j2 < xs.length ∧
          out.Points = (ds.Points.drop i2).take (j2 + 1 - i2) ∧
          s ≤ xs.getD i2 0 ∧ (∀ k < i2, xs.getD k 0 < s) ∧
          xs.getD j2 0 ≤ e ∧ (∀ k, j2 < k → k < xs.length → e < xs.getD k 0) ∧
          info.StartFrame = (i2 : ℤ) ∧ info.EndFrame = (j2 : ℤ) ∧
          info.ActualStartTime = .fin (xs.getD i2 0) ∧
          info.ActualEndTime = .fin (xs.getD j2 0) ∧
          info.ClippedPoints = j2 + 1 - i2 := by
    intro r hr
    rw [hles] at hr
    simp only [Bool.false_eq_true, if_false, hsf2, hef2] at hr
    rw [if_neg hnd] at hr
    simp only [Int.toNat_natCast] at hr
    refine ⟨_, _, hr, i, j, hij, hjlen, rfl, hsi, hprev, hje, hafter, rfl, rfl, ?_, ?_, ?_⟩
    · rw [slice_headD ds.Points i j hij hjpts, ts_getD ds.Points xs hx i hipts]
    · rw [slice_getLastD ds.Points i j hij hjpts, ts_getD ds.Points xs hx j hjpts]
    · exact slice_length ds.Points i j hij hjpts
  unfold Clipper.ClipDataset
  rw [if_neg hlen, hm, hM]
  cases hcs : cfg.StartTime with
  | some v =>
      have hv : v = .fin s := by
        unfold clipEffStart at hs
        rw [hcs] at hs
        exact hs
      subst hv
      dsimp only
      rw [if_neg (by
        simp only [GoF.lt_fin_fin, GoF.gt_fin_fin, Bool.or_eq_true, decide_eq_true_eq]
        push_neg
        exact ⟨hsm, hsMl⟩)]
      cases hce : cfg.EndTime with
      | some w =>
          have hw : w = .fin e := by
            unfold clipEffEnd at he
            rw [hce] at he
            exact he
          subst hw
          dsimp only
          rw [if_neg (by
            simp only [GoF.lt_fin_fin, GoF.gt_fin_fin, Bool.or_eq_true, decide_eq_true_eq]
            push_neg
            exact ⟨hem, heM⟩)]
          exact hfinish _ rfl
      | none =>
          have hMe : M = e := by
            have h1 : GoF.fin M = .fin e := by
              unfold clipEffEnd at he
              rw [hce] at he
              rw [hM] at he
              exact he
            simpa using h1
          subst hMe
          dsimp only
          exact hfinish _ rfl
  | none =>
      have hms : m = s := by
        have h1 : GoF.fin m = .fin s := by
          unfold clipEffStart at hs
          rw [hcs] at hs
          rw [hm] at hs
          exact hs
        simpa using h1
      subst hms
      dsimp only
      cases hce : cfg.EndTime with
      | some w =>
          have hw : w = .fin e := by
            unfold clipEffEnd at he
            rw [hce] at he
            exact he
          subst hw
          dsimp only
          rw [if_neg (by
            simp only [GoF.lt_fin_fin, GoF.gt_fin_fin, Bool.or_eq_true, decide_eq_true_eq]
            push_neg
            exact ⟨hem, heM⟩)]
          exact hfinish _ rfl
      | none =>
          have hMe : M = e := by
            have h1 : GoF.fin M = .fin e := by
              unfold clipEffEnd at he
              rw [hce] at he
              rw [hM] at he
              exact he
            simpa using h1
          subst hMe
          dsimp only
          exact hfinish _ rfl

/-- The gap dataset for the C4 counterexample: timestamps `0` and `30`. -/
def c4GapDs : Dataset :=
  { Points := [⟨.fin 0, [], "p", "A"⟩, ⟨.fin 30, [], "p", "A"⟩], Columns := [], Metadata := [] }

/-- The gap configuration: requested window `[10, 20]`, inside the
observed range but containing no sample. -/
def c4GapCfg : Clipper.ClipConfig := { StartTime := some (.fin 10), EndTime := some (.fin 20) }

/-- C4 counterexample: a non-empty time-ordered dataset with effective
bounds `10 < 20` inside the observed range `[0, 30]` for which
`ClipDataset` does not return the claimed slice: the window contains
no sample, the resolved start frame (1) exceeds the resolved end
frame (0), and the call fails with `NoDataInRange`, producing no
output dataset. -/
theorem clipDataset_gap_counterexample :
    c4GapDs.Points ≠ [] ∧
      c4GapDs.Points.map (fun p => p.Timestamp) = [(0 : ℝ), 30].map GoF.fin ∧
      ([(0 : ℝ), 30]).Sorted (fun a b => a ≤ b) ∧
      clipEffStart c4GapDs.Points c4GapCfg = .fin 10 ∧
      clipEffEnd c4GapDs.Points c4GapCfg = .fin 20 ∧
      Clipper.minScan c4GapDs.Points = .fin 0 ∧
      Clipper.maxScan c4GapDs.Points = .fin 30 ∧
      (0 : ℝ) ≤ 10 ∧ (10 : ℝ) ≤ 30 ∧ (0 : ℝ) ≤ 20 ∧ (20 : ℝ) ≤ 30 ∧ (10 : ℝ) < 20 ∧
      Clipper.ClipDataset c4GapDs c4GapCfg = .error .noDataInRange := by
  refine ⟨by simp [c4GapDs], rfl, by norm_num [List.sorted_cons], rfl, rfl, ?_, ?_,
    by norm_num, by norm_num, by norm_num, by norm_num, by norm_num, ?_⟩
  · norm_num [Clipper.minScan, c4GapDs, List.foldl]
  · norm_num [Clipper.maxScan, c4GapDs, List.foldl]
  · norm_num [Clipper.ClipDataset, Clipper.minScan, Clipper.maxScan, Clipper.clipScan,
      c4GapDs, c4GapCfg, List.foldl]

/-- The C4 witness dataset with timestamps `0, 10, 20, 30`. -/
def c4Ds : Dataset :=
  { Points := [⟨.fin 0, [], "p", "A"⟩, ⟨.fin 10, [], "p", "A"⟩,
               ⟨.fin 20, [], "p", "A"⟩, ⟨.fin 30, [], "p", "A"⟩],
    Columns := [], Metadata := [] }

/-- The C4 witness configuration: requested window `[5, 25]`. -/
def c4Cfg : Clipper.ClipConfig := { StartTime := some (.fin 5), EndTime := some (.fin 25) }

/-- C4 witness: clipping timestamps `[0, 10, 20, 30]` with requested
start `5` and end `25` (applying the amended theorem) retains exactly
the samples at `10` and `20` with `ActualStartTime = 10`,
`ActualEndTime = 20`, `ClippedPoints = 2`, frames `1` and `2`. -/
theorem clipDataset_window_witness :
    ∃ out info, Clipper.ClipDataset c4Ds c4Cfg = .ok (out, info) ∧
      out.Points.map (fun p => p.Timestamp) = [GoF.fin 10, GoF.fin 20] ∧
      info.ActualStartTime = .fin 10 ∧ info.ActualEndTime = .fin 20 ∧
      info.ClippedPoints = 2 ∧ info.StartFrame = 1 ∧ info.EndFrame = 2 := by
  obtain ⟨out, info, hok, i, j, hij, hjlen, hpts, hsi, hprev, hje, hafter,
      hsf, hef, has, hae, hcp⟩ :=
    clipDataset_window c4Ds c4Cfg [0, 10, 20, 30] 5 25 0 30 rfl (by simp [c4Ds])
      (by norm_num [List.sorted_cons])
      (by norm_num [Clipper.minScan, c4Ds, List.foldl])
      (by norm_num [Clipper.maxScan, c4Ds, List.foldl])
      rfl rfl (by norm_num) (by norm_num) (by norm_num) (by norm_num) (by norm_num)
      ⟨1, by norm_num, by norm_num [List.getD_cons_succ, List.getD_cons_zero],
        by norm_num [List.getD_cons_succ, List.getD_cons_zero]⟩
  simp only [List.length_cons, List.length_nil] at hjlen
  have hi1 : i = 1 := by
    have hi4 : i < 4 := by omega
    interval_cases i
    · exact absurd hsi (by norm_num [List.getD_cons_zero])
    · rfl
    · exact absurd (hprev 1 (by omega))
        (by norm_num [List.getD_cons_succ, List.getD_cons_zero])
    · exact absurd (hprev 1 (by omega))
        (by norm_num [List.getD_cons_succ, List.getD_cons_zero])
  have hj2 : j = 2 := by
    have hj4 : j < 4 := by omega
    interval_cases j
    · omega
    · exact absurd (hafter 2 (by omega) (by norm_num))
        (by norm_num [List.getD_cons_succ, List.getD_cons_zero])
    · rfl
    · exact absurd hje (by norm_num [List.getD_cons_succ, List.getD_cons_zero])
  subst hi1
  subst hj2
  refine ⟨out, info, hok, ?_, ?_, ?_, ?_, ?_, ?_⟩
  · rw [hpts]
    rfl
  · rw [has]
    norm_num [List.getD_cons_succ, List.getD_cons_zero]
  · rw [hae]
    norm_num [List.getD_cons_succ, List.getD_cons_zero]
  · rw [hcp]
  · rw [hsf]
    norm_num
  · rw [hef]
    norm_num
